import Mathlib

/-!
Verification development for the botVPN repository's remote VPN provisioning
and subscription-lifecycle subsystem (`internal/vpn/wireguard.go`,
`internal/scheduler/subscription_checker.go`, and the purchase flow in
`internal/config/config.go`).

The remote WireGuard registry file `/etc/wireguard/wg0.conf` is modelled as a
list of lines (`List String`), which is the unit that the `sed`/`grep`
commands issued by the Go code operate on.  The `sed`/`grep` patterns used by
the code contain no regex metacharacters beyond the explicitly escaped
`\[Peer\]`, and the client names the system generates (`user_<id>`) are
literal text, so patterns are modelled as literal strings.  Machine integers
are modelled as `Int`/`Nat` (no arithmetic in the code can overflow 64-bit
ints for meaningful inputs).
-/

namespace BotVPN

/-! ### String utilities

`strHasPrefix p s` models an anchored (`^pattern`) match of `sed`/`grep`,
`strContains s pat` models an unanchored `grep pattern` line match, and
`strTail` removes a single leading character (used to model `sed`
substitutions that strip a leading `#`). -/

def strHasPrefix (p s : String) : Bool :=
  p.data.isPrefixOf s.data

def hasSub (pat : List Char) : List Char → Bool
  | [] => pat.isPrefixOf []
  | c :: rest => pat.isPrefixOf (c :: rest) || hasSub pat rest

def strContains (s pat : String) : Bool :=
  hasSub pat.data s.data

def strTail (s : String) : String :=
  String.mk (s.data.drop 1)





/-! ### PeerConfigStore: the remote registry

A peer block, as appended by `addClientToServer`
(`internal/vpn/wireguard.go:782`), occupies the lines
`# <name>`, `[Peer]`, `PublicKey = <pk>`, `AllowedIPs = <ip>`.  The
`echo '<config>' >> /etc/wireguard/wg0.conf` command appends the format
string `"\n# %s\n[Peer]\nPublicKey = %s\nAllowedIPs = %s\n"` plus `echo`'s
own trailing newline, i.e. the six lines below. -/

def appendPeer (registry : List String) (name publicKey clientIP : String) :
    List String :=
  registry ++
    ["", "# " ++ name, "[Peer]", "PublicKey = " ++ publicKey,
     "AllowedIPs = " ++ clientIP, ""]

/-- One line under `BlockClient`'s `sed` program
(`internal/vpn/wireguard.go:238`):
`s/^# name$/#BLOCKED name/g; s/^\[Peer\]/#[Peer]/g; s/^PublicKey/#PublicKey/g;
s/^AllowedIPs/#AllowedIPs/g`, the four substitutions applied in sequence. -/
def blockLine (name line : String) : String :=
  let l1 := if line = "# " ++ name then "#BLOCKED " ++ name else line
  let l2 := if strHasPrefix "[Peer]" l1 then "#" ++ l1 else l1
  let l3 := if strHasPrefix "PublicKey" l2 then "#" ++ l2 else l2
  if strHasPrefix "AllowedIPs" l3 then "#" ++ l3 else l3

/-- One line under `UnblockClient`'s `sed` program
(`internal/vpn/wireguard.go:280`):
`s/^#BLOCKED name$/# name/g; s/^#\[Peer\]/[Peer]/g; s/^#PublicKey/PublicKey/g;
s/^#AllowedIPs/AllowedIPs/g`.  Each of the last three substitutions strips
the single leading `#` of a matching line. -/
def unblockLine (name line : String) : String :=
  let l1 := if line = "#BLOCKED " ++ name then "# " ++ name else line
  let l2 := if strHasPrefix "#[Peer]" l1 then strTail l1 else l1
  let l3 := if strHasPrefix "#PublicKey" l2 then strTail l2 else l2
  if strHasPrefix "#AllowedIPs" l3 then strTail l3 else l3

/-- `BlockClient` applies its `sed -i` program to every line of the registry. -/
def blockClient (name : String) (registry : List String) : List String :=
  registry.map (blockLine name)

/-- `UnblockClient` applies its `sed -i` program to every line of the registry. -/
def unblockClient (name : String) (registry : List String) : List String :=
  registry.map (unblockLine name)

/-- `IsClientBlocked` (`internal/vpn/wireguard.go:320`):
`grep -c "#BLOCKED name" wg0.conf || echo "0"`, then `count > 0`.
`grep -c` counts the lines that contain the pattern as a substring. -/
def isClientBlocked (registry : List String) (clientName : String) : Bool :=
  registry.countP (fun line => strContains line ("#BLOCKED " ++ clientName)) > 0

/-! ### getNextClientIP (`internal/vpn/wireguard.go:738`)

The remote read `grep AllowedIPs /etc/wireguard/wg0.conf` is modelled by
filtering the registry's lines; `grep` exits non-zero (so `executeCommand`
errors and the function returns `10.0.0.2/32`) exactly when no line matches.
An unreadable registry (same error path) is modelled by `none`.
The final empty line produced by splitting `grep`'s newline-terminated output
is skipped by the `line == ""` check, so operating directly on the matched
lines is equivalent. -/

/-- Go's `strconv.Atoi`: an optional sign followed by at least one digit
(64-bit overflow cannot occur for the inputs in scope and is not modelled). -/
def goAtoi (s : String) : Option Int :=
  match s.data with
  | [] => none
  | '-' :: rest =>
    if rest ≠ [] ∧ rest.all (·.isDigit) then
      some (-(rest.foldl (fun a c => a * 10 + (c.toNat - '0'.toNat)) 0 : Nat))
    else none
  | '+' :: rest =>
    if rest ≠ [] ∧ rest.all (·.isDigit) then
      some ((rest.foldl (fun a c => a * 10 + (c.toNat - '0'.toNat)) 0 : Nat))
    else none
  | l =>
    if l.all (·.isDigit) then
      some ((l.foldl (fun a c => a * 10 + (c.toNat - '0'.toNat)) 0 : Nat))
    else none

/-- Go's `strings.Split` for a single-character separator (the separators in
scope are `"="`, `"/"` and `"."`): splits on every occurrence, keeping empty
fields, and yields `[""]` on the empty string. -/
def goSplitAux (sep : Char) : List Char → List Char → List (List Char)
  | [], acc => [acc.reverse]
  | c :: rest, acc =>
    if c = sep then acc.reverse :: goSplitAux sep rest []
    else goSplitAux sep rest (c :: acc)

def goSplit (s : String) (sep : Char) : List String :=
  (goSplitAux sep s.data []).map String.mk

/-- Go's `strings.TrimSpace` (the registry text in scope is ASCII): strips
leading and trailing whitespace. -/
def goSpace (c : Char) : Bool :=
  c = ' ' || c = '\t' || c = '\n' || c = '\r'

def goTrimSpace (s : String) : String :=
  String.mk (((s.data.dropWhile goSpace).reverse.dropWhile goSpace).reverse)

/-- The body of `getNextClientIP`'s loop: skip empty lines, split on `=`,
take the part after the first `=`, trim, strip the CIDR suffix, split on
`.`, require at least four components, and parse the fourth. -/
def parseLineOctet (line : String) : Option Int :=
  if line = "" then none
  else
    let parts := goSplit line '='
    if parts.length < 2 then none
    else
      let ipWithCIDR := goTrimSpace (parts.getD 1 "")
      let ipOnly := (goSplit ipWithCIDR '/').headD ""
      let ipParts := goSplit ipOnly '.'
      if ipParts.length < 4 then none
      else goAtoi (ipParts.getD 3 "")

/-- The loop of `getNextClientIP`: `maxIP` starts at 1 (the server address)
and is raised by every parsed last octet that exceeds it. -/
def maxIPof (lines : List String) : Int :=
  lines.foldl
    (fun acc line =>
      match parseLineOctet line with
      | some v => if v > acc then v else acc
      | none => acc)
    1

/-- `getNextClientIP`: `none` models an unreadable registry. -/
def getNextClientIP (registry : Option (List String)) : String :=
  match registry with
  | none => "10.0.0.2/32"
  | some lines =>
    let matched := lines.filter (fun l => strContains l "AllowedIPs")
    if matched.isEmpty then "10.0.0.2/32"
    else "10.0.0." ++ toString (maxIPof matched + 1) ++ "/32"

/-- Modelled from the spec: the last octets that §4.2 says `NextFreeAddress`
extracts from the allow-list lines, as a plain list (used to compare the
source's running-maximum loop against the spec's `max(octets ∪ {1}) + 1`). -/
def specLastOctets (lines : List String) : List Int :=
  lines.filterMap parseLineOctet


/-! ### removeClientFromServer (`internal/vpn/wireguard.go:830`)

`grep -v '# name' wg0.conf | grep -v -A2 '# name' > /tmp/wg0.conf.tmp &&
 mv /tmp/wg0.conf.tmp /etc/wireguard/wg0.conf`.

The first stage keeps the lines that do not contain `# name`.  The second
stage, `grep -v -A2`, *selects* the lines not containing the pattern and
prints up to two lines of trailing context after each selected line; it does
not suppress anything beyond non-selected lines.  (GNU grep would also print
`--` separators between non-adjacent context groups, but in this pipeline
every input line of the second stage is selected — stage one already removed
all matching lines — so groups are contiguous and no separator is ever
emitted; the separator is therefore not modelled.) -/

def grepVA2 (pat : String) (lines : List String) : List String :=
  (lines.foldl
    (fun (st : List String × Nat) line =>
      if strContains line pat = false then (st.1 ++ [line], 2)
      else if st.2 > 0 then (st.1 ++ [line], st.2 - 1)
      else (st.1, 0))
    ([], 0)).1

def removeClientFromServer (clientName : String) (registry : List String) :
    List String :=
  grepVA2 ("# " ++ clientName)
    (registry.filter (fun l => strContains l ("# " ++ clientName) = false))

/-! ### Provisioning command strings

The exact shell commands each registry mutation runs, as built by
`fmt.Sprintf` in the source.  These are used to check the commit pattern
(temp-file-then-move versus in-place edit) of each mutation. -/

/-- `addClientToServer` (`internal/vpn/wireguard.go:782`): the peer block is
appended with an in-place `>>` redirection. -/
def addClientToServerCmd (clientName publicKey clientIP : String) : String :=
  "echo '\n# " ++ clientName ++ "\n[Peer]\nPublicKey = " ++ publicKey ++
    "\nAllowedIPs = " ++ clientIP ++ "\n' >> /etc/wireguard/wg0.conf"

/-- `BlockClient` (`internal/vpn/wireguard.go:238`): in-place `sed -i`. -/
def blockClientCmd (clientName : String) : String :=
  "sed -i 's/^# " ++ clientName ++ "$/#BLOCKED " ++ clientName ++
    "/g; s/^\\[Peer\\]/#[Peer]/g; s/^PublicKey/#PublicKey/g; s/^AllowedIPs/#AllowedIPs/g' /etc/wireguard/wg0.conf"

/-- `UnblockClient` (`internal/vpn/wireguard.go:280`): in-place `sed -i`. -/
def unblockClientCmd (clientName : String) : String :=
  "sed -i 's/^#BLOCKED " ++ clientName ++ "$/# " ++ clientName ++
    "/g; s/^#\\[Peer\\]/[Peer]/g; s/^#PublicKey/PublicKey/g; s/^#AllowedIPs/AllowedIPs/g' /etc/wireguard/wg0.conf"

/-- `removeClientFromServer` (`internal/vpn/wireguard.go:832`): writes a temp
file and then moves it over the registry. -/
def removeClientFromServerCmd (clientName : String) : String :=
  "grep -v '# " ++ clientName ++ "' /etc/wireguard/wg0.conf | grep -v -A2 '# " ++
    clientName ++ "' > /tmp/wg0.conf.tmp && mv /tmp/wg0.conf.tmp /etc/wireguard/wg0.conf"

/-- Modelled from the spec: §4.2's "committed by rewriting the whole file
atomically via a temp-file-then-move pattern" — the command writes a temp
file and moves it over the registry, and does not edit the registry in place
(no append redirection onto it and no `sed -i`). -/
def usesTempFileThenMove (cmd : String) : Bool :=
  strContains cmd "> /tmp/" && strContains cmd "mv /tmp/" &&
    strContains cmd ">> /etc/wireguard/wg0.conf" = false &&
    strContains cmd "sed -i" = false

/-! ### CreateClientConfig (`internal/vpn/wireguard.go:108`)

The remote stages are modelled by an oracle recording each stage's outcome.
`getNextClientIP` never reports an error in the source (its error channel is
always `nil`), so its stage is the registry read outcome already modelled
above. -/

structure ProvisionEnv where
  connectOk : Bool
  genKeysResult : Option (String × String)
  serverInfoResult : Option (String × String × String)
  registry : Option (List String)
  addClientOk : Bool
  restartOk : Bool
  localWriteOk : Bool

structure ProvisionResult where
  result : Option String
  localWriteAttempted : Bool
deriving Repr, DecidableEq

/-- `CreateClientConfig`: connect, generate client keys, read server info,
allocate the next client IP, append the peer, restart the service, and only
then write the local artifact `<configDir>/<clientName>.conf`. -/
def createClientConfig (configDir clientName : String) (env : ProvisionEnv) :
    ProvisionResult :=
  if env.connectOk = false then ⟨none, false⟩
  else
    match env.genKeysResult with
    | none => ⟨none, false⟩
    | some _ =>
      match env.serverInfoResult with
      | none => ⟨none, false⟩
      | some _ =>
        let _clientIP := getNextClientIP env.registry
        if env.addClientOk = false then ⟨none, false⟩
        else if env.restartOk = false then ⟨none, false⟩
        else if env.localWriteOk then
          ⟨some (configDir ++ "/" ++ clientName ++ ".conf"), true⟩
        else ⟨none, true⟩

/-! ### The purchase flow (`handleSuccessfulPayment`,
`internal/config/config.go`)

After plan lookup, server selection, user lookup and `SetupServer`, the flow
calls `CreateClientConfig` and only on its success sets
`subscription.ConfigFilePath` and calls `AddSubscription`. -/

structure PurchaseEnv where
  planLookupOk : Bool
  serverAvailable : Bool
  userLookupOk : Bool
  setupServerOk : Bool
  prov : ProvisionEnv
  addSubscriptionOk : Bool

structure PurchaseResult where
  persistAttempted : Bool
  persistedConfigPath : Option String
deriving Repr, DecidableEq

def handleSuccessfulPayment (configDir clientName : String)
    (env : PurchaseEnv) : PurchaseResult :=
  if env.planLookupOk = false then ⟨false, none⟩
  else if env.serverAvailable = false then ⟨false, none⟩
  else if env.userLookupOk = false then ⟨false, none⟩
  else if env.setupServerOk = false then ⟨false, none⟩
  else
    match (createClientConfig configDir clientName env.prov).result with
    | none => ⟨false, none⟩
    | some path =>
      ⟨true, if env.addSubscriptionOk then some path else none⟩

/-! ### SubscriptionReconciler (`internal/scheduler/subscription_checker.go`)

Time is modelled in whole seconds as `Int` (`time.Time` comparisons and the
`Sub`/`Hours`/24 arithmetic; for the non-negative durations reached by the
near-expiry branch, Go's float truncation agrees with integer division).
The database and notification side effects of one sweep are recorded as
lists, with an oracle giving each effect's outcome. -/

structure Subscription where
  id : Nat
  userID : Nat
  serverID : Nat
  planID : Nat
  endDate : Int
  status : String
  configFilePath : String
deriving Repr, DecidableEq

structure SweepEnv where
  updateOk : Nat → Bool
  serverLookupOk : Nat → Bool
  revokeOk : Nat → Bool
  userLookupOk : Nat → Bool
  planLookupOk : Nat → Bool
  admins : List Nat

/-- One iteration of `checkExpiredSubscriptions`'s loop
(`subscription_checker.go:80-121`).  Returns the subscription's committed
database row, whether `RevokeClientConfig` was called, whether the expiry
notification was attempted, the near-expiry warning (if any), and whether
the subscription was counted into `expiredSubscriptions`.

`now.After(EndDate)` is a strict comparison.  On `UpdateSubscription`
failure the loop continues (row stays `active`); `revokeVPNConfig` first
looks up the server (failure: continue, no revoke call) and then calls
`RevokeClientConfig` (failure: continue, no notification, not counted);
a notification error is only logged. -/
def processSub (now : Int) (env : SweepEnv) (s : Subscription) :
    Subscription × Bool × Bool × Option Int × Bool :=
  if now > s.endDate then
    if env.updateOk s.id = false then (s, false, false, none, false)
    else
      let s' := { s with status := "expired" }
      if env.serverLookupOk s.serverID = false then (s', false, false, none, false)
      else if env.revokeOk s.id = false then (s', true, false, none, false)
      else (s', true, true, none, true)
  else
    let daysLeft := (s.endDate - now) / 86400
    if daysLeft ≤ 3 ∧ daysLeft ≥ 0 then (s, false, false, some daysLeft, false)
    else (s, false, false, none, false)

/-- The loop over all active subscriptions, accumulating in order the
committed rows, revoke calls, expiry-notification attempts, near-expiry
warnings, and the `expiredSubscriptions` report list. -/
def processSubs (now : Int) (env : SweepEnv) :
    List Subscription →
      List Subscription × List Nat × List Nat × List (Nat × Int) ×
        List Subscription
  | [] => ([], [], [], [], [])
  | s :: rest =>
    let r := processSubs now env rest
    let p := processSub now env s
    (p.1 :: r.1,
     (if p.2.1 then [s.id] else []) ++ r.2.1,
     (if p.2.2.1 then [s.id] else []) ++ r.2.2.1,
     (match p.2.2.2.1 with | some d => [(s.id, d)] | none => []) ++ r.2.2.2.1,
     (if p.2.2.2.2 then [p.1] else []) ++ r.2.2.2.2)

structure SweepResult where
  subs : List Subscription
  revokeCalls : List Nat
  notifyCalls : List Nat
  warnings : List (Nat × Int)
  expired : List Subscription
  reportEmitted : Bool
  reportLines : List Nat
deriving Repr, DecidableEq

/-- One full sweep (`checkExpiredSubscriptions`): process every active
subscription, then, if any were expired this cycle and there is at least one
administrator, emit a single aggregated report whose lines are the expired
subscriptions whose user and plan lookups both succeed. -/
def checkExpiredSubscriptions (now : Int) (env : SweepEnv)
    (subs : List Subscription) : SweepResult :=
  let r := processSubs now env subs
  let expired := r.2.2.2.2
  let report : Bool × List Nat :=
    if expired.length > 0 then
      if env.admins.isEmpty then (false, [])
      else
        (true,
          (expired.filter
            (fun s =>
              env.userLookupOk s.userID && env.planLookupOk s.planID)).map
            (·.id))
    else (false, [])
  ⟨r.1, r.2.1, r.2.2.1, r.2.2.2.1, expired, report.1, report.2⟩

/-- An effect oracle in which every database, remote and notification
operation succeeds, with one administrator configured. -/
def allOkEnv : SweepEnv :=
  ⟨fun _ => true, fun _ => true, fun _ => true, fun _ => true, fun _ => true, [99]⟩

/-! ### Basic lemmas about the string utilities and the address loop -/

theorem hasSub_length {pat s : List Char} (h : hasSub pat s = true) :
    pat.length ≤ s.length := by
  induction s with
  | nil =>
    simp only [hasSub] at h
    have := List.isPrefixOf_iff_prefix.mp h
    exact this.length_le
  | cons c rest ih =>
    simp only [hasSub, Bool.or_eq_true] at h
    rcases h with h | h
    · exact (List.isPrefixOf_iff_prefix.mp h).length_le
    · exact le_trans (ih h) (by simp)

theorem hasSub_of_isPrefixOf {pat s : List Char} (h : pat.isPrefixOf s = true) :
    hasSub pat s = true := by
  cases s with
  | nil => simpa [hasSub] using h
  | cons c rest => simp [hasSub, h]

theorem hasSub_append_right {pat : List Char} (a : List Char) {b : List Char}
    (h : hasSub pat b = true) : hasSub pat (a ++ b) = true := by
  induction a with
  | nil => simpa using h
  | cons c rest ih => simp [hasSub, ih]

theorem strContains_self (s : String) : strContains s s = true := by
  have : s.data.isPrefixOf s.data = true :=
    List.isPrefixOf_iff_prefix.mpr (List.prefix_refl _)
  exact hasSub_of_isPrefixOf this

theorem maxIPof_eq_fold_max (lines : List String) :
    maxIPof lines = (specLastOctets lines).foldl max 1 := by
  suffices h : ∀ (init : Int),
      lines.foldl
        (fun acc line =>
          match parseLineOctet line with
          | some v => if v > acc then v else acc
          | none => acc)
        init = (specLastOctets lines).foldl max init by
    exact h 1
  induction lines with
  | nil => intro init; simp [specLastOctets]
  | cons l rest ih =>
    intro init
    simp only [List.foldl_cons, specLastOctets, List.filterMap_cons]
    cases hp : parseLineOctet l with
    | none => simpa [hp, specLastOctets] using ih init
    | some v =>
      have hmax : (if v > init then v else init) = max init v := by
        rcases le_or_lt v init with h | h
        · simp [not_lt.mpr h, max_eq_left h]
        · simp [h, max_eq_right h.le]
      simp only [hp, hmax, List.foldl_cons]
      simpa [specLastOctets] using ih (max init v)

/-! ### Facts about the line rewrites of `BlockClient` / `UnblockClient` -/

theorem data_blocked_append (name : String) :
    ("#BLOCKED " ++ name).data =
      '#' :: 'B' :: 'L' :: 'O' :: 'C' :: 'K' :: 'E' :: 'D' :: ' ' :: name.data := rfl

theorem data_comment_append (name : String) :
    ("# " ++ name).data = '#' :: ' ' :: name.data := rfl

theorem data_hash_append (s : String) : ("#" ++ s).data = '#' :: s.data := rfl

theorem strTail_hash (s : String) : strTail ("#" ++ s) = s := rfl

theorem hp_peer_blocked (name : String) :
    strHasPrefix "[Peer]" ("#BLOCKED " ++ name) = false := rfl

theorem hp_pk_blocked (name : String) :
    strHasPrefix "PublicKey" ("#BLOCKED " ++ name) = false := rfl

theorem hp_aip_blocked (name : String) :
    strHasPrefix "AllowedIPs" ("#BLOCKED " ++ name) = false := rfl

theorem hp_hpeer_comment (name : String) :
    strHasPrefix "#[Peer]" ("# " ++ name) = false := rfl

theorem hp_hpk_comment (name : String) :
    strHasPrefix "#PublicKey" ("# " ++ name) = false := rfl

theorem hp_haip_comment (name : String) :
    strHasPrefix "#AllowedIPs" ("# " ++ name) = false := rfl

theorem hp_pk_hash (s : String) : strHasPrefix "PublicKey" ("#" ++ s) = false := rfl

theorem hp_aip_hash (s : String) : strHasPrefix "AllowedIPs" ("#" ++ s) = false := rfl

theorem hp_hpeer_hash (s : String) :
    strHasPrefix "#[Peer]" ("#" ++ s) = strHasPrefix "[Peer]" s := rfl

theorem hp_hpk_hash (s : String) :
    strHasPrefix "#PublicKey" ("#" ++ s) = strHasPrefix "PublicKey" s := rfl

theorem hp_haip_hash (s : String) :
    strHasPrefix "#AllowedIPs" ("#" ++ s) = strHasPrefix "AllowedIPs" s := rfl

/-- A line matched by `^\[Peer\]` starts with `[`. -/
theorem head_of_peer {line : String} (h : strHasPrefix "[Peer]" line = true) :
    ∃ cs, line.data = '[' :: cs := by
  unfold strHasPrefix at h
  cases hd : line.data with
  | nil => rw [hd] at h; simp [List.isPrefixOf] at h
  | cons c cs =>
    rw [hd] at h
    have : ('[' == c) = true := by
      cases hbc : ('[' == c) with
      | true => rfl
      | false => rw [show "[Peer]".data = '[' :: "Peer]".data from rfl,
          List.isPrefixOf, hbc] at h; simp at h
    have hc : c = '[' := (eq_of_beq this).symm
    subst hc
    exact ⟨cs, rfl⟩

/-- A line matched by `^PublicKey` starts with `P`. -/
theorem head_of_pk {line : String} (h : strHasPrefix "PublicKey" line = true) :
    ∃ cs, line.data = 'P' :: cs := by
  unfold strHasPrefix at h
  cases hd : line.data with
  | nil => rw [hd] at h; simp [List.isPrefixOf] at h
  | cons c cs =>
    rw [hd] at h
    have : ('P' == c) = true := by
      cases hbc : ('P' == c) with
      | true => rfl
      | false => rw [show "PublicKey".data = 'P' :: "ublicKey".data from rfl,
          List.isPrefixOf, hbc] at h; simp at h
    have hc : c = 'P' := (eq_of_beq this).symm
    subst hc
    exact ⟨cs, rfl⟩

/-- A line matched by `^AllowedIPs` starts with `A`. -/
theorem head_of_aip {line : String} (h : strHasPrefix "AllowedIPs" line = true) :
    ∃ cs, line.data = 'A' :: cs := by
  unfold strHasPrefix at h
  cases hd : line.data with
  | nil => rw [hd] at h; simp [List.isPrefixOf] at h
  | cons c cs =>
    rw [hd] at h
    have : ('A' == c) = true := by
      cases hbc : ('A' == c) with
      | true => rfl
      | false => rw [show "AllowedIPs".data = 'A' :: "llowedIPs".data from rfl,
          List.isPrefixOf, hbc] at h; simp at h
    have hc : c = 'A' := (eq_of_beq this).symm
    subst hc
    exact ⟨cs, rfl⟩

theorem ne_of_data_head {line : String} {c : Char} {cs : List Char}
    (hd : line.data = c :: cs) (s : String) (hne : s.data.head? ≠ some c) :
    line ≠ s := by
  intro e
  apply hne
  rw [← e, hd]
  rfl

/-- `blockLine` on the peer's own name-comment line. -/
theorem blockLine_comment (name : String) :
    blockLine name ("# " ++ name) = "#BLOCKED " ++ name := by
  simp [blockLine, hp_peer_blocked, hp_pk_blocked, hp_aip_blocked]

/-- `unblockLine` on the peer's blocked marker line. -/
theorem unblockLine_blocked (name : String) :
    unblockLine name ("#BLOCKED " ++ name) = "# " ++ name := by
  simp [unblockLine, hp_hpeer_comment, hp_hpk_comment, hp_haip_comment]

/-- `blockLine` on a `[Peer]` section-header line. -/
theorem blockLine_peer {name line : String} (hne : line ≠ "# " ++ name)
    (h : strHasPrefix "[Peer]" line = true) :
    blockLine name line = "#" ++ line := by
  simp [blockLine, hne, h, hp_pk_hash, hp_aip_hash]

/-- `blockLine` on a `PublicKey` line. -/
theorem blockLine_pk {name line : String} (hne : line ≠ "# " ++ name)
    (h1 : strHasPrefix "[Peer]" line = false)
    (h : strHasPrefix "PublicKey" line = true) :
    blockLine name line = "#" ++ line := by
  simp [blockLine, hne, h1, h, hp_aip_hash]

/-- `blockLine` on an `AllowedIPs` line. -/
theorem blockLine_aip {name line : String} (hne : line ≠ "# " ++ name)
    (h1 : strHasPrefix "[Peer]" line = false)
    (h2 : strHasPrefix "PublicKey" line = false)
    (h : strHasPrefix "AllowedIPs" line = true) :
    blockLine name line = "#" ++ line := by
  simp [blockLine, hne, h1, h2, h]

/-- `blockLine` leaves every other line unchanged. -/
theorem blockLine_id {name line : String} (hne : line ≠ "# " ++ name)
    (h1 : strHasPrefix "[Peer]" line = false)
    (h2 : strHasPrefix "PublicKey" line = false)
    (h3 : strHasPrefix "AllowedIPs" line = false) :
    blockLine name line = line := by
  simp [blockLine, hne, h1, h2, h3]

/-- `unblockLine` leaves a line untouched when none of its four patterns
matches. -/
theorem unblockLine_id {name line : String}
    (h1 : strHasPrefix "#[Peer]" line = false)
    (h2 : strHasPrefix "#PublicKey" line = false)
    (h3 : strHasPrefix "#AllowedIPs" line = false)
    (h4 : line ≠ "#BLOCKED " ++ name) :
    unblockLine name line = line := by
  simp [unblockLine, h1, h2, h3, h4]

/-- `unblockLine` strips the `#` that `blockLine` put before a `[Peer]`
line. -/
theorem unblockLine_hash_peer {name line : String}
    (h : strHasPrefix "[Peer]" line = true) :
    unblockLine name ("#" ++ line) = line := by
  obtain ⟨cs, hd⟩ := head_of_peer h
  have hne : ("#" ++ line) ≠ "#BLOCKED " ++ name := by
    intro e
    have := congrArg String.data e
    rw [data_hash_append, data_blocked_append, hd] at this
    simp at this
  have hpk : strHasPrefix "#PublicKey" line = false := by
    unfold strHasPrefix
    rw [hd, show "#PublicKey".data = '#' :: "PublicKey".data from rfl]
    simp [List.isPrefixOf]
  have haip : strHasPrefix "#AllowedIPs" line = false := by
    unfold strHasPrefix
    rw [hd, show "#AllowedIPs".data = '#' :: "AllowedIPs".data from rfl]
    simp [List.isPrefixOf]
  simp [unblockLine, hne, hp_hpeer_hash, h, strTail_hash, hpk, haip]

/-- `unblockLine` strips the `#` that `blockLine` put before a `PublicKey`
line. -/
theorem unblockLine_hash_pk {name line : String}
    (h : strHasPrefix "PublicKey" line = true) :
    unblockLine name ("#" ++ line) = line := by
  obtain ⟨cs, hd⟩ := head_of_pk h
  have hne : ("#" ++ line) ≠ "#BLOCKED " ++ name := by
    intro e
    have := congrArg String.data e
    rw [data_hash_append, data_blocked_append, hd] at this
    simp at this
  have hpeer : strHasPrefix "#[Peer]" ("#" ++ line) = false := by
    rw [hp_hpeer_hash]
    unfold strHasPrefix
    rw [hd, show "[Peer]".data = '[' :: "Peer]".data from rfl]
    simp [List.isPrefixOf]
  have haip : strHasPrefix "#AllowedIPs" line = false := by
    unfold strHasPrefix
    rw [hd, show "#AllowedIPs".data = '#' :: "AllowedIPs".data from rfl]
    simp [List.isPrefixOf]
  simp [unblockLine, hne, hpeer, hp_hpk_hash, h, strTail_hash, haip]

/-- `unblockLine` strips the `#` that `blockLine` put before an `AllowedIPs`
line. -/
theorem unblockLine_hash_aip {name line : String}
    (h : strHasPrefix "AllowedIPs" line = true) :
    unblockLine name ("#" ++ line) = line := by
  obtain ⟨cs, hd⟩ := head_of_aip h
  have hne : ("#" ++ line) ≠ "#BLOCKED " ++ name := by
    intro e
    have := congrArg String.data e
    rw [data_hash_append, data_blocked_append, hd] at this
    simp at this
  have hpeer : strHasPrefix "#[Peer]" ("#" ++ line) = false := by
    rw [hp_hpeer_hash]
    unfold strHasPrefix
    rw [hd, show "[Peer]".data = '[' :: "Peer]".data from rfl]
    simp [List.isPrefixOf]
  have hpk : strHasPrefix "#PublicKey" ("#" ++ line) = false := by
    rw [hp_hpk_hash]
    unfold strHasPrefix
    rw [hd, show "PublicKey".data = 'P' :: "ublicKey".data from rfl]
    simp [List.isPrefixOf]
  simp [unblockLine, hne, hpeer, hpk, hp_haip_hash, h, strTail_hash]

/-- Per-line round trip: on a line that is not already commented out
(`#[Peer]`, `#PublicKey`, `#AllowedIPs`) and is not the peer's own blocked
marker, unblocking after blocking restores the line. -/
theorem unblock_block_line (name line : String)
    (h1 : strHasPrefix "#[Peer]" line = false)
    (h2 : strHasPrefix "#PublicKey" line = false)
    (h3 : strHasPrefix "#AllowedIPs" line = false)
    (h4 : line ≠ "#BLOCKED " ++ name) :
    unblockLine name (blockLine name line) = line := by
  by_cases e : line = "# " ++ name
  · rw [e, blockLine_comment, unblockLine_blocked]
  · by_cases p1 : strHasPrefix "[Peer]" line = true
    · rw [blockLine_peer e p1, unblockLine_hash_peer p1]
    · rw [Bool.not_eq_true] at p1
      by_cases p2 : strHasPrefix "PublicKey" line = true
      · rw [blockLine_pk e p1 p2, unblockLine_hash_pk p2]
      · rw [Bool.not_eq_true] at p2
        by_cases p3 : strHasPrefix "AllowedIPs" line = true
        · rw [blockLine_aip e p1 p2 p3, unblockLine_hash_aip p3]
        · rw [Bool.not_eq_true] at p3
          rw [blockLine_id e p1 p2 p3, unblockLine_id h1 h2 h3 h4]

/-! ### Claim theorems -/

/-- C4: `NextFreeAddress` returns `max(existing allow-list last octets ∪ {1}) + 1`
as the last octet in the configured `/24`: on a registry with no peers or an
unreadable registry it returns the first client address (last octet 2), and
on a registry with peers at last octets 2, 3 and 5 it returns last octet 6
(max+1, not the first gap). -/
theorem c4_next_free_address :
    getNextClientIP none = "10.0.0.2/32"
  ∧ (∀ lines : List String,
      lines.filter (fun l => strContains l "AllowedIPs") = [] →
        getNextClientIP (some lines) = "10.0.0.2/32")
  ∧ (∀ lines : List String,
      lines.filter (fun l => strContains l "AllowedIPs") ≠ [] →
        getNextClientIP (some lines) =
          "10.0.0." ++
            toString
              ((specLastOctets
                  (lines.filter (fun l => strContains l "AllowedIPs"))).foldl
                max 1 + 1) ++ "/32")
  ∧ getNextClientIP
      (some ["AllowedIPs = 10.0.0.2/32", "AllowedIPs = 10.0.0.3/32",
        "AllowedIPs = 10.0.0.5/32"]) = "10.0.0.6/32" := by
  refine ⟨rfl, fun lines h => ?_, fun lines h => ?_, by rfl⟩
  · simp [getNextClientIP, h]
  · simp [getNextClientIP, List.isEmpty_iff, h, maxIPof_eq_fold_max]

/-- Witness for C4: the hypothesis-bearing conjuncts applied at concrete
registries. -/
theorem c4_next_free_address_witness :
    getNextClientIP (some ["[Interface]", "Address = 10.0.0.1/24"]) = "10.0.0.2/32"
  ∧ getNextClientIP
      (some ["AllowedIPs = 10.0.0.2/32", "AllowedIPs = 10.0.0.3/32",
        "AllowedIPs = 10.0.0.5/32"]) =
      "10.0.0." ++
        toString
          ((specLastOctets
              (["AllowedIPs = 10.0.0.2/32", "AllowedIPs = 10.0.0.3/32",
                "AllowedIPs = 10.0.0.5/32"].filter
                (fun l => strContains l "AllowedIPs"))).foldl max 1 + 1) ++
        "/32" :=
  ⟨c4_next_free_address.2.1 _ (by decide), c4_next_free_address.2.2.1 _ (by decide)⟩

/-- C10: next-free-address allocation applies no upper bound within the /24:
with an existing allow-list at last octet 255, `getNextClientIP` returns the
string `10.0.0.256/32` (not a valid IPv4 host address); the function has no
error outcome and performs no capacity check. -/
theorem c10_no_upper_bound :
    getNextClientIP (some ["AllowedIPs = 10.0.0.255/32"]) = "10.0.0.256/32" := by
  rfl

/-- C6 counterexample: the claim says every registry mutation is committed
via a temp-file-then-move rewrite, but `addClientToServer` appends in place
with `>>` (and `BlockClient` edits in place with `sed -i`). -/
theorem c6_counterexample :
    usesTempFileThenMove (addClientToServerCmd "user_7" "PKEY" "10.0.0.2/32") =
      false
  ∧ usesTempFileThenMove (blockClientCmd "user_7") = false := by
  constructor <;> decide

/-- C6 (amended): of the registry mutations, only `removeClientFromServer`
commits via the temp-file-then-move pattern; `addClientToServer` appends to
the registry in place with `>>`, and `BlockClient` / `UnblockClient` edit it
in place with `sed -i` (shown at representative client names). -/
theorem c6_commit_patterns :
    usesTempFileThenMove (removeClientFromServerCmd "user_7") = true
  ∧ strContains (addClientToServerCmd "user_7" "PKEY" "10.0.0.2/32")
      ">> /etc/wireguard/wg0.conf" = true
  ∧ usesTempFileThenMove (addClientToServerCmd "user_7" "PKEY" "10.0.0.2/32") =
      false
  ∧ strContains (blockClientCmd "user_7") "sed -i" = true
  ∧ strContains (unblockClientCmd "user_7") "sed -i" = true
  ∧ usesTempFileThenMove (blockClientCmd "user_7") = false
  ∧ usesTempFileThenMove (unblockClientCmd "user_7") = false := by
  refine ⟨by decide, by decide, by decide, by decide, by decide, by decide, by decide⟩

/-- C7: the claim (and spec) say `RemovePeer` deletes the whole four-line
block; the code's `grep -v '# name' | grep -v -A2 '# name'` removes only the
name-comment line — with `-v`, `-A2` prints trailing context instead of
suppressing the following lines, and the first stage has already removed
every matching line, so the second stage passes its input through — leaving
the peer's `[Peer]`/`PublicKey`/`AllowedIPs` lines (and hence its access)
in place.  The no-op half of the claim does hold: with no matching comment
line the registry is unchanged. -/
theorem c7_remove_leaves_block :
    removeClientFromServer "alice"
      ["# alice", "[Peer]", "PublicKey = KA", "AllowedIPs = 10.0.0.2/32"] =
      ["[Peer]", "PublicKey = KA", "AllowedIPs = 10.0.0.2/32"]
  ∧ removeClientFromServer "carol"
      ["# alice", "[Peer]", "PublicKey = KA", "AllowedIPs = 10.0.0.2/32"] =
      ["# alice", "[Peer]", "PublicKey = KA", "AllowedIPs = 10.0.0.2/32"] := by
  constructor <;> decide

/-- C1 counterexample: the claim treats `now >= EndDate` as expired, but the
sweep uses the strict `now.After(EndDate)`.  With `EndDate` equal to the
sweep's current time and every effect succeeding, the subscription is not
transitioned (it stays `active`), no revoke call is made, and instead a
near-expiry warning with zero days left is sent. -/
theorem c1_boundary_counterexample :
    (0 : Int) ≥ 0
  ∧ (checkExpiredSubscriptions 0 allOkEnv
        [⟨1, 10, 20, 30, 0, "active", "/cfg/user_10.conf"⟩]).subs =
      [⟨1, 10, 20, 30, 0, "active", "/cfg/user_10.conf"⟩]
  ∧ (checkExpiredSubscriptions 0 allOkEnv
        [⟨1, 10, 20, 30, 0, "active", "/cfg/user_10.conf"⟩]).subs ≠
      [⟨1, 10, 20, 30, 0, "expired", "/cfg/user_10.conf"⟩]
  ∧ (checkExpiredSubscriptions 0 allOkEnv
        [⟨1, 10, 20, 30, 0, "active", "/cfg/user_10.conf"⟩]).revokeCalls = []
  ∧ (checkExpiredSubscriptions 0 allOkEnv
        [⟨1, 10, 20, 30, 0, "active", "/cfg/user_10.conf"⟩]).warnings =
      [(1, 0)] := by
  refine ⟨le_refl 0, by decide, by decide, by decide, by decide⟩

/-- C1 (amended): the expiry condition is the strict `now > EndDate`.  For a
single active subscription and a sweep in which the status update, server
lookup, revoke and display lookups succeed and at least one administrator is
configured: if `now > EndDate`, the sweep commits status `expired`, makes
exactly one revoke call, exactly one user notification, and lists the
subscription exactly once in the single admin report; if `EndDate` equals
the sweep time, the subscription is not expired — it keeps its status and
receives a near-expiry warning with zero days left. -/
theorem c1_expiry_sweep (now : Int) (env : SweepEnv) (s : Subscription)
    (hu : env.updateOk s.id = true)
    (hsl : env.serverLookupOk s.serverID = true)
    (hr : env.revokeOk s.id = true)
    (hul : env.userLookupOk s.userID = true)
    (hpl : env.planLookupOk s.planID = true)
    (ha : env.admins.isEmpty = false) :
    (now > s.endDate →
      checkExpiredSubscriptions now env [s] =
        ⟨[{ s with status := "expired" }], [s.id], [s.id], [],
          [{ s with status := "expired" }], true, [s.id]⟩)
  ∧ (now = s.endDate →
      checkExpiredSubscriptions now env [s] =
        ⟨[s], [], [], [(s.id, (0 : Int))], [], false, []⟩) := by
  constructor
  · intro h
    simp [checkExpiredSubscriptions, processSubs, processSub, h, hu, hsl, hr,
      hul, hpl, ha]
  · intro h
    have hng : ¬ now > s.endDate := by omega
    have hdl : s.endDate - now = 0 := by omega
    simp [checkExpiredSubscriptions, processSubs, processSub, hng, hdl]

/-- Witness for C1: the amended theorem applied to a concrete subscription,
once strictly past its end date and once exactly at it. -/
theorem c1_expiry_sweep_witness :
    checkExpiredSubscriptions 1 allOkEnv
        [⟨1, 10, 20, 30, 0, "active", "/cfg/user_10.conf"⟩] =
      ⟨[⟨1, 10, 20, 30, 0, "expired", "/cfg/user_10.conf"⟩], [1], [1], [],
        [⟨1, 10, 20, 30, 0, "expired", "/cfg/user_10.conf"⟩], true, [1]⟩
  ∧ checkExpiredSubscriptions 0 allOkEnv
        [⟨1, 10, 20, 30, 0, "active", "/cfg/user_10.conf"⟩] =
      ⟨[⟨1, 10, 20, 30, 0, "active", "/cfg/user_10.conf"⟩], [], [],
        [(1, (0 : Int))], [], false, []⟩ :=
  ⟨(c1_expiry_sweep 1 allOkEnv ⟨1, 10, 20, 30, 0, "active", "/cfg/user_10.conf"⟩
      rfl rfl rfl rfl rfl rfl).1 (by decide),
   (c1_expiry_sweep 0 allOkEnv ⟨1, 10, 20, 30, 0, "active", "/cfg/user_10.conf"⟩
      rfl rfl rfl rfl rfl rfl).2 rfl⟩

/-- C9: when the remote revoke for an expired subscription fails (the status
update has necessarily succeeded first, or the revoke would not have been
attempted), the committed status change to `expired` remains, and the sweep
continues: a later expired subscription is still committed, revoked and
notified.  The failing subscription gets no user notification and no report
line. -/
theorem c9_revoke_failure_continues (now : Int) (env : SweepEnv)
    (s1 s2 : Subscription)
    (h1 : now > s1.endDate) (h2 : now > s2.endDate)
    (hu1 : env.updateOk s1.id = true)
    (hsl1 : env.serverLookupOk s1.serverID = true)
    (hr1 : env.revokeOk s1.id = false)
    (hu2 : env.updateOk s2.id = true)
    (hsl2 : env.serverLookupOk s2.serverID = true)
    (hr2 : env.revokeOk s2.id = true) :
    (checkExpiredSubscriptions now env [s1, s2]).subs =
      [{ s1 with status := "expired" }, { s2 with status := "expired" }]
  ∧ (checkExpiredSubscriptions now env [s1, s2]).revokeCalls = [s1.id, s2.id]
  ∧ (checkExpiredSubscriptions now env [s1, s2]).notifyCalls = [s2.id]
  ∧ (checkExpiredSubscriptions now env [s1, s2]).expired =
      [{ s2 with status := "expired" }] := by
  refine ⟨?_, ?_, ?_, ?_⟩ <;>
    simp [checkExpiredSubscriptions, processSubs, processSub, h1, h2, hu1,
      hsl1, hr1, hu2, hsl2, hr2]

/-- Witness for C9: a sweep over two overdue subscriptions in which the
first subscription's revoke fails and the second's succeeds. -/
theorem c9_revoke_failure_continues_witness :
    (checkExpiredSubscriptions 1
        ⟨fun _ => true, fun _ => true, fun i => decide (i ≠ 1), fun _ => true,
          fun _ => true, [99]⟩
        [⟨1, 10, 20, 30, 0, "active", "/cfg/user_10.conf"⟩,
         ⟨2, 11, 21, 31, 0, "active", "/cfg/user_11.conf"⟩]).subs =
      [⟨1, 10, 20, 30, 0, "expired", "/cfg/user_10.conf"⟩,
       ⟨2, 11, 21, 31, 0, "expired", "/cfg/user_11.conf"⟩]
  ∧ (checkExpiredSubscriptions 1
        ⟨fun _ => true, fun _ => true, fun i => decide (i ≠ 1), fun _ => true,
          fun _ => true, [99]⟩
        [⟨1, 10, 20, 30, 0, "active", "/cfg/user_10.conf"⟩,
         ⟨2, 11, 21, 31, 0, "active", "/cfg/user_11.conf"⟩]).notifyCalls =
      [2] :=
  ⟨((c9_revoke_failure_continues 1 _ _ _ (by decide) (by decide) rfl rfl
      (by decide) rfl rfl (by decide))).1,
   ((c9_revoke_failure_continues 1 _ _ _ (by decide) (by decide) rfl rfl
      (by decide) rfl rfl (by decide))).2.2.1⟩

/-- C8: in `CreateClientConfig` the local artifact write is attempted only
after every remote stage (connect, key generation, server-info read, peer
append, service restart) has succeeded — if any remote stage fails, no local
artifact write is attempted — and in the purchase flow `AddSubscription` is
attempted only when `CreateClientConfig` returned an artifact path. -/
theorem c8_artifact_ordering (configDir clientName : String)
    (env : PurchaseEnv) :
    ((env.prov.connectOk = false ∨ env.prov.genKeysResult = none ∨
      env.prov.serverInfoResult = none ∨ env.prov.addClientOk = false ∨
      env.prov.restartOk = false) →
      (createClientConfig configDir clientName env.prov).localWriteAttempted =
        false)
  ∧ ((handleSuccessfulPayment configDir clientName env).persistAttempted =
        true →
      (createClientConfig configDir clientName env.prov).result.isSome =
        true) := by
  obtain ⟨pok, sav, uok, setup, prov, addok⟩ := env
  obtain ⟨c, gk, si, reg, ac, ro, lw⟩ := prov
  constructor
  · intro h
    rcases h with h | h | h | h | h <;>
      simp_all [createClientConfig] <;>
      cases c <;> cases gk <;> cases si <;> cases ac <;> cases ro <;>
        simp_all [createClientConfig]
  · intro h
    cases c <;> cases gk <;> cases si <;> cases ac <;> cases ro <;> cases lw <;>
      cases pok <;> cases sav <;> cases uok <;> cases setup <;>
      simp_all [createClientConfig, handleSuccessfulPayment]

/-- Witness for C8: a provisioning run whose restart stage fails attempts no
local write, and a fully successful purchase run persists the subscription
only with the artifact produced. -/
theorem c8_artifact_ordering_witness :
    (createClientConfig "/cfg" "user_7"
        ⟨true, some ("PRIV", "PUB"), some ("SPK", "1.2.3.4", "51820"),
          some ["AllowedIPs = 10.0.0.2/32"], true, false, true⟩).localWriteAttempted =
      false
  ∧ (createClientConfig "/cfg" "user_7"
        ⟨true, some ("PRIV", "PUB"), some ("SPK", "1.2.3.4", "51820"),
          some ["AllowedIPs = 10.0.0.2/32"], true, true, true⟩).result.isSome =
      true :=
  ⟨(c8_artifact_ordering "/cfg" "user_7"
      ⟨true, true, true, true,
        ⟨true, some ("PRIV", "PUB"), some ("SPK", "1.2.3.4", "51820"),
          some ["AllowedIPs = 10.0.0.2/32"], true, false, true⟩, true⟩).1
      (Or.inr (Or.inr (Or.inr (Or.inr rfl)))),
   (c8_artifact_ordering "/cfg" "user_7"
      ⟨true, true, true, true,
        ⟨true, some ("PRIV", "PUB"), some ("SPK", "1.2.3.4", "51820"),
          some ["AllowedIPs = 10.0.0.2/32"], true, true, true⟩, true⟩).2
      (by rfl)⟩

/-- The blocked marker line differs from the plain name-comment line. -/
theorem blocked_ne_comment (name : String) :
    ("#BLOCKED " ++ name) ≠ ("# " ++ name) := by
  intro e
  have h := congrArg String.data e
  rw [data_blocked_append, data_comment_append] at h
  simp at h

/-- Prepending `#` changes a line. -/
theorem hash_ne_self (s : String) : ("#" ++ s) ≠ s := by
  intro e
  have h := congrArg (fun t => t.data.length) e
  simp only [data_hash_append, List.length_cons] at h
  omega

/-- Dropping the first character of a nonempty line changes it. -/
theorem strTail_ne {line : String} {c : Char} {cs : List Char}
    (hd : line.data = c :: cs) : strTail line ≠ line := by
  intro e
  have h := congrArg (fun t => t.data.length) e
  simp only [strTail, hd] at h
  simp at h

/-- A line matched by an anchored two-character-or-longer pattern starts
with the pattern's first two characters. -/
theorem head2_of_hasPrefix {p line : String} {c d : Char} {cp : List Char}
    (hp : p.data = c :: d :: cp) (h : strHasPrefix p line = true) :
    ∃ cs, line.data = c :: d :: cs := by
  unfold strHasPrefix at h
  rw [hp] at h
  cases hd : line.data with
  | nil => rw [hd] at h; simp [List.isPrefixOf] at h
  | cons b bs =>
    rw [hd] at h
    have hb : (c == b) = true := by
      cases hbc : (c == b) with
      | true => rfl
      | false => rw [List.isPrefixOf, hbc] at h; simp at h
    cases bs with
    | nil =>
      rw [List.isPrefixOf, hb] at h
      simp [List.isPrefixOf] at h
    | cons b2 bs2 =>
      have hb2 : (d == b2) = true := by
        cases hbc : (d == b2) with
        | true => rfl
        | false =>
          rw [List.isPrefixOf, hb, List.isPrefixOf, hbc] at h
          simp at h
      have hc : c = b := eq_of_beq hb
      have hc2 : d = b2 := eq_of_beq hb2
      subst hc; subst hc2
      exact ⟨bs2, rfl⟩

/-- A pattern longer than a line cannot occur in it. -/
theorem strContains_false_of_lt {s pat : String}
    (h : s.data.length < pat.data.length) : strContains s pat = false := by
  cases hv : strContains s pat with
  | false => rfl
  | true => exact absurd (hasSub_length hv) (by omega)

/-- C2 counterexample: with another peer (`bob`) already blocked, blocking
and then unblocking `alice` does not restore the registry: unblocking
uncomments bob's `#[Peer]`/`#PublicKey`/`#AllowedIPs` lines, which the
block of `alice` had left untouched. -/
theorem c2_roundtrip_counterexample :
    unblockClient "alice" (blockClient "alice"
        ["# alice", "[Peer]", "PublicKey = KA", "AllowedIPs = 10.0.0.2/32",
         "#BLOCKED bob", "#[Peer]", "#PublicKey = KB",
         "#AllowedIPs = 10.0.0.3/32"]) ≠
      ["# alice", "[Peer]", "PublicKey = KA", "AllowedIPs = 10.0.0.2/32",
       "#BLOCKED bob", "#[Peer]", "#PublicKey = KB",
       "#AllowedIPs = 10.0.0.3/32"]
  ∧ unblockClient "alice" (blockClient "alice"
        ["# alice", "[Peer]", "PublicKey = KA", "AllowedIPs = 10.0.0.2/32",
         "#BLOCKED bob", "#[Peer]", "#PublicKey = KB",
         "#AllowedIPs = 10.0.0.3/32"]) =
      ["# alice", "[Peer]", "PublicKey = KA", "AllowedIPs = 10.0.0.2/32",
       "#BLOCKED bob", "[Peer]", "PublicKey = KB",
       "AllowedIPs = 10.0.0.3/32"] := by
  constructor <;> decide

/-- C2 (amended): `SetBlocked(name, true)` followed by
`SetBlocked(name, false)` restores the registry byte-for-byte provided no
line of the registry is already commented out (starts with `#[Peer]`,
`#PublicKey` or `#AllowedIPs`) and the named peer's blocked marker is not
already present — i.e. on registries where every peer is unblocked.  Without
that proviso the round trip fails (see the counterexample). -/
theorem c2_block_unblock_roundtrip (name : String) (registry : List String)
    (h : ∀ l ∈ registry,
      strHasPrefix "#[Peer]" l = false ∧ strHasPrefix "#PublicKey" l = false ∧
        strHasPrefix "#AllowedIPs" l = false ∧ l ≠ "#BLOCKED " ++ name) :
    unblockClient name (blockClient name registry) = registry := by
  revert h
  induction registry with
  | nil => intro _; rfl
  | cons l rest ih =>
    intro h
    have hl := h l (by simp)
    have hrest := ih (fun x hx => h x (by simp [hx]))
    show unblockLine name (blockLine name l) ::
        unblockClient name (blockClient name rest) = l :: rest
    rw [unblock_block_line name l hl.1 hl.2.1 hl.2.2.1 hl.2.2.2, hrest]

/-- Witness for C2: the round trip evaluated on a full registry (interface
section plus two unblocked peers). -/
theorem c2_block_unblock_roundtrip_witness :
    unblockClient "alice" (blockClient "alice"
        ["[Interface]", "PrivateKey = SPRIV", "Address = 10.0.0.1/24",
         "ListenPort = 51820", "", "# alice", "[Peer]", "PublicKey = KA",
         "AllowedIPs = 10.0.0.2/32", "", "", "# bob", "[Peer]",
         "PublicKey = KB", "AllowedIPs = 10.0.0.3/32", ""]) =
      ["[Interface]", "PrivateKey = SPRIV", "Address = 10.0.0.1/24",
       "ListenPort = 51820", "", "# alice", "[Peer]", "PublicKey = KA",
       "AllowedIPs = 10.0.0.2/32", "", "", "# bob", "[Peer]",
       "PublicKey = KB", "AllowedIPs = 10.0.0.3/32", ""] :=
  c2_block_unblock_roundtrip "alice" _ (by decide)

/-- C3 counterexample: blocking `alice` also rewrites lines outside alice's
own four-line block — here bob's `[Peer]`, `PublicKey` and `AllowedIPs`
lines are commented out as well, so the claim that every other line is left
unchanged is false. -/
theorem c3_frame_counterexample :
    blockClient "alice"
        ["# alice", "[Peer]", "PublicKey = KA", "AllowedIPs = 10.0.0.2/32",
         "# bob", "[Peer]", "PublicKey = KB", "AllowedIPs = 10.0.0.3/32"] =
      ["#BLOCKED alice", "#[Peer]", "#PublicKey = KA",
       "#AllowedIPs = 10.0.0.2/32", "# bob", "#[Peer]", "#PublicKey = KB",
       "#AllowedIPs = 10.0.0.3/32"]
  ∧ (blockClient "alice"
        ["# alice", "[Peer]", "PublicKey = KA", "AllowedIPs = 10.0.0.2/32",
         "# bob", "[Peer]", "PublicKey = KB",
         "AllowedIPs = 10.0.0.3/32"]).getD 5 "" ≠
      "[Peer]" := by
  constructor <;> decide

/-- C3 (amended): the lines `SetBlocked` rewrites are exactly the named
peer's own comment line together with *every* line of the file starting with
`[Peer]`, `PublicKey` or `AllowedIPs` (for blocking) or their `#`-commented
forms (for unblocking) — so every other peer's block is rewritten too, while
interface-section lines and other peers' name comments are untouched. -/
theorem c3_setblocked_frame (name line : String) :
    (blockLine name line ≠ line ↔
      line = "# " ++ name ∨ strHasPrefix "[Peer]" line = true ∨
        strHasPrefix "PublicKey" line = true ∨
        strHasPrefix "AllowedIPs" line = true)
  ∧ (unblockLine name line ≠ line ↔
      line = "#BLOCKED " ++ name ∨ strHasPrefix "#[Peer]" line = true ∨
        strHasPrefix "#PublicKey" line = true ∨
        strHasPrefix "#AllowedIPs" line = true) := by
  constructor
  · constructor
    · intro hne
      by_contra hno
      push_neg at hno
      obtain ⟨n1, n2, n3, n4⟩ := hno
      exact hne (blockLine_id n1 (Bool.not_eq_true _ ▸ n2)
        (Bool.not_eq_true _ ▸ n3) (Bool.not_eq_true _ ▸ n4))
    · rintro (e | p | p | p)
      · rw [e, blockLine_comment]
        exact blocked_ne_comment name
      · obtain ⟨cs, hd⟩ := head_of_peer p
        have hne : line ≠ "# " ++ name := by
          intro e
          rw [e, data_comment_append] at hd
          simp at hd
        rw [blockLine_peer hne p]
        exact hash_ne_self line
      · obtain ⟨cs, hd⟩ := head_of_pk p
        have hne : line ≠ "# " ++ name := by
          intro e
          rw [e, data_comment_append] at hd
          simp at hd
        have hp1 : strHasPrefix "[Peer]" line = false := by
          unfold strHasPrefix
          rw [hd]
          rfl
        rw [blockLine_pk hne hp1 p]
        exact hash_ne_self line
      · obtain ⟨cs, hd⟩ := head_of_aip p
        have hne : line ≠ "# " ++ name := by
          intro e
          rw [e, data_comment_append] at hd
          simp at hd
        have hp1 : strHasPrefix "[Peer]" line = false := by
          unfold strHasPrefix
          rw [hd]
          rfl
        have hp2 : strHasPrefix "PublicKey" line = false := by
          unfold strHasPrefix
          rw [hd]
          rfl
        rw [blockLine_aip hne hp1 hp2 p]
        exact hash_ne_self line
  · constructor
    · intro hne
      by_contra hno
      push_neg at hno
      obtain ⟨n1, n2, n3, n4⟩ := hno
      exact hne (unblockLine_id (Bool.not_eq_true _ ▸ n2)
        (Bool.not_eq_true _ ▸ n3) (Bool.not_eq_true _ ▸ n4) n1)
    · rintro (e | p | p | p)
      · rw [e, unblockLine_blocked]
        exact fun ee => blocked_ne_comment name ee.symm
      · obtain ⟨cs, hd⟩ := head2_of_hasPrefix
          (show "#[Peer]".data = '#' :: '[' :: "Peer]".data from rfl) p
        have hne : line ≠ "#BLOCKED " ++ name := by
          intro e
          rw [e, data_blocked_append] at hd
          simp at hd
        have hpk : strHasPrefix "#PublicKey" (strTail line) = false := by
          unfold strHasPrefix strTail
          rw [hd]
          rfl
        have haip : strHasPrefix "#AllowedIPs" (strTail line) = false := by
          unfold strHasPrefix strTail
          rw [hd]
          rfl
        rw [show unblockLine name line = strTail line by
          simp [unblockLine, hne, p, hpk, haip]]
        exact strTail_ne hd
      · obtain ⟨cs, hd⟩ := head2_of_hasPrefix
          (show "#PublicKey".data = '#' :: 'P' :: "ublicKey".data from rfl) p
        have hne : line ≠ "#BLOCKED " ++ name := by
          intro e
          rw [e, data_blocked_append] at hd
          simp at hd
        have hpeer : strHasPrefix "#[Peer]" line = false := by
          unfold strHasPrefix
          rw [hd]
          rfl
        have haip : strHasPrefix "#AllowedIPs" (strTail line) = false := by
          unfold strHasPrefix strTail
          rw [hd]
          rfl
        rw [show unblockLine name line = strTail line by
          simp [unblockLine, hne, hpeer, p, haip]]
        exact strTail_ne hd
      · obtain ⟨cs, hd⟩ := head2_of_hasPrefix
          (show "#AllowedIPs".data = '#' :: 'A' :: "llowedIPs".data from rfl) p
        have hne : line ≠ "#BLOCKED " ++ name := by
          intro e
          rw [e, data_blocked_append] at hd
          simp at hd
        have hpeer : strHasPrefix "#[Peer]" line = false := by
          unfold strHasPrefix
          rw [hd]
          rfl
        have hpk : strHasPrefix "#PublicKey" line = false := by
          unfold strHasPrefix
          rw [hd]
          rfl
        rw [show unblockLine name line = strTail line by
          simp [unblockLine, hne, hpeer, hpk, p]]
        exact strTail_ne hd

/-- C5 counterexample: `IsClientBlocked` greps for `#BLOCKED <name>` as a
substring, so a blocked peer whose name extends the queried name is a false
positive: with only `ab` blocked, the query for `a` reports blocked although
no marker line for exactly `a` exists. -/
theorem c5_isblocked_counterexample :
    isClientBlocked ["#BLOCKED ab"] "a" = true
  ∧ ¬ ("#BLOCKED a" ∈ (["#BLOCKED ab"] : List String)) := by
  constructor <;> decide

/-- C5 (amended): `IsClientBlocked(name)` is true iff some registry line
contains `#BLOCKED <name>` as a substring (not: iff the marker line for
exactly that name is present — name-extension collisions are false
positives).  It is true immediately after `SetBlocked(name, true)` on a
registry containing the peer's comment line, and false immediately after
`AppendPeer` provided it was false before and the appended public-key and
allow-list fields do not themselves contain the marker text. -/
theorem c5_isblocked_marker (registry : List String) (name pk ip : String) :
    (isClientBlocked registry name =
      registry.any (fun l => strContains l ("#BLOCKED " ++ name)))
  ∧ (("# " ++ name) ∈ registry →
      isClientBlocked (blockClient name registry) name = true)
  ∧ (isClientBlocked registry name = false →
      strContains ("PublicKey = " ++ pk) ("#BLOCKED " ++ name) = false →
      strContains ("AllowedIPs = " ++ ip) ("#BLOCKED " ++ name) = false →
      isClientBlocked (appendPeer registry name pk ip) name = false) := by
  refine ⟨?_, ?_, ?_⟩
  · simp only [isClientBlocked]
    rw [Bool.eq_iff_iff]
    simp [List.countP_pos_iff, List.any_eq_true]
  · intro hmem
    have hline : ("#BLOCKED " ++ name) ∈ blockClient name registry := by
      have h := List.mem_map_of_mem (blockLine name) hmem
      rw [blockLine_comment] at h
      exact h
    have hpos :
        0 < (blockClient name registry).countP
          (fun line => strContains line ("#BLOCKED " ++ name)) :=
      List.countP_pos_iff.mpr ⟨_, hline, strContains_self _⟩
    simp [isClientBlocked, hpos]
  · intro h0 hpk hip
    have hcount :
        registry.countP
          (fun line => strContains line ("#BLOCKED " ++ name)) = 0 := by
      by_contra hc
      have hpos := Nat.pos_of_ne_zero hc
      simp [isClientBlocked, hpos] at h0
    have hempty : strContains "" ("#BLOCKED " ++ name) = false := rfl
    have hcomment :
        strContains ("# " ++ name) ("#BLOCKED " ++ name) = false := by
      apply strContains_false_of_lt
      rw [data_comment_append, data_blocked_append]
      simp
    have hpeer : strContains "[Peer]" ("#BLOCKED " ++ name) = false := by
      apply strContains_false_of_lt
      rw [data_blocked_append]
      simp [show "[Peer]".data.length = 6 from rfl]
    simp only [isClientBlocked, appendPeer, List.countP_append, hcount]
    simp [List.countP_cons, hempty, hcomment, hpeer, hpk, hip]

/-- Witness for C5: the hypothesis-bearing conjuncts applied to concrete
registries: blocking `alice` makes `IsClientBlocked` true, and appending
`alice` to a registry with only an interface section leaves it false. -/
theorem c5_isblocked_marker_witness :
    isClientBlocked
        (blockClient "alice"
          ["# alice", "[Peer]", "PublicKey = KA",
           "AllowedIPs = 10.0.0.2/32"]) "alice" = true
  ∧ isClientBlocked
        (appendPeer ["[Interface]", "PrivateKey = SPRIV"] "alice" "KA"
          "10.0.0.2/32") "alice" = false :=
  ⟨(c5_isblocked_marker
      ["# alice", "[Peer]", "PublicKey = KA", "AllowedIPs = 10.0.0.2/32"]
      "alice" "KA" "10.0.0.2/32").2.1 (by decide),
   (c5_isblocked_marker ["[Interface]", "PrivateKey = SPRIV"] "alice" "KA"
      "10.0.0.2/32").2.2 (by decide) (by decide) (by decide)⟩

end BotVPN
